import Mathlib

/-!
Shallow embedding of the `graphqlHTTP` express middleware
(`src/index.ts`, `src/parseBody.ts` of BlueSialia/express-graphql).

External collaborators (the GraphQL engine's `parse`/`validate`/`execute`/
`validateSchema`/`getOperationAST`, the platform's `JSON.parse`,
`Buffer#toString`, zlib streams, `URLSearchParams` and the GraphiQL
renderer) are modelled as parameters of an `Env` record; the code of this
repository is translated function by function.
-/

namespace ExpressGraphql

/-- JavaScript-like values exchanged between the HTTP layer and the engine. -/
inductive Js where
  | str (s : String)
  | num (n : Int)
  | boolean (b : Bool)
  | null
  | obj (fields : List (String × Js))
  | arr (elems : List Js)

/-- Test mirroring `typeof v === 'object'` in JavaScript:
objects, arrays and `null` all have typeof `'object'`. -/
def Js.typeofObject : Js → Bool
  | .obj _ => true
  | .arr _ => true
  | .null => true
  | _ => false

/-- An `http-errors` error: carries a status, a message,
and optionally extra response headers (as in `httpError(405, msg, pairs)`). -/
structure HttpErr where
  status : Nat
  message : String
  headers : List (String × String)
deriving DecidableEq

/-- The `originalError` slot of a `GraphQLError`: absent, an error carrying an
HTTP `status` property, or a plain error without one. -/
inductive GErrOrig where
  | noOrig
  | withStatus (status : Nat)
  | plainErr
deriving DecidableEq

/-- A `GraphQLError` as far as this middleware inspects it. -/
structure GErr where
  message : String
  originalError : GErrOrig
deriving DecidableEq

/-- One thrown JavaScript value, classified the way the catch block at
`src/index.ts:174` classifies it with `instanceof` tests. -/
inductive ThrownItem where
  | gql (e : GErr)
  | http (e : HttpErr)
  | err (message : String)
  | nonErr (stringified : String)
deriving DecidableEq

/-- A thrown value reaching the catch block: a single value or an array
(`error instanceof Array ? error : [error]`). -/
inductive Thrown where
  | single (item : ThrownItem)
  | arr (items : List ThrownItem)
deriving DecidableEq

/-- Result of `request.accepts(['json', 'html'])` for a request. -/
inductive AcceptRes where
  | json
  | html
  | neither
deriving DecidableEq

/-- The pre-existing `request.body` as left by earlier middleware. -/
inductive ReqBody where
  | undef
  | str (s : String)
  | buffer (bytes : List Nat)
  | keyedObj (fields : List (String × Js))
  | other

/-- Parsed `content-type` header (the output of `contentType.parse`):
the media type and the optional `charset` parameter. -/
structure CType where
  type : String
  charset : Option String
deriving DecidableEq

/-- The inbound HTTP request, restricted to the fields this middleware reads.
`queryParams` is the key/value view of `new URLSearchParams(request.url.split('?')[1])`,
`acceptsJsonHtml` the value of `request.accepts(['json', 'html'])`, and
`chunks` the byte chunks yielded by iterating the body stream. -/
structure Request where
  method : String
  queryParams : List (String × String)
  body : ReqBody
  contentType : Option CType
  contentEncoding : Option String
  acceptsJsonHtml : AcceptRes
  protocol : String
  xForwardedHost : Option String
  host : Option String
  originalUrl : Option String
  chunks : List (List Nat)

/-- Error raised by `httpError(400, msg)` with no extra headers. -/
def e400 (msg : String) : Thrown :=
  .single (.http ⟨400, msg, []⟩)

/-- Error raised by `httpError(415, msg)`. -/
def e415 (msg : String) : Thrown :=
  .single (.http ⟨415, msg, []⟩)

/-- The 413 error of `src/parseBody.ts:131`. -/
def e413 : Thrown :=
  .single (.http ⟨413, "Invalid body: request entity too large.", []⟩)

/-- Sum of the byte lengths of a list of stream chunks. -/
def sizeSum (chunks : List (List Nat)) : Nat :=
  (chunks.map List.length).sum

/-- ASCII lowercasing, modelling `String#toLowerCase` and
`toLocaleLowerCase` on header tokens (structurally recursive so that it
evaluates definitionally). -/
def strToLower (s : String) : String :=
  ⟨s.data.map Char.toLower⟩

/-- ASCII uppercasing, modelling `String#toUpperCase`. -/
def strToUpper (s : String) : String :=
  ⟨s.data.map Char.toUpper⟩

/-- The chunk-accumulation loop of `decompressed` (`src/parseBody.ts:126`):
add each chunk's byte length to the running size, raise 413 the moment the
running size exceeds `maxSize`, otherwise keep the chunk. -/
def readChunks : List (List Nat) → Nat → Nat → Except Thrown (List (List Nat))
  | [], _, _ => .ok []
  | c :: cs, size, maxSize =>
    let size := size + c.length
    if size > maxSize then .error e413
    else
      match readChunks cs size maxSize with
      | .error t => .error t
      | .ok rest => .ok (c :: rest)

/-- GraphQL request parameters (`GraphQLParams` of `src/interfaces.ts`),
as produced by `getGraphQLParams`. -/
structure Params where
  query : Option String
  variablesV : Option Js
  operationName : Option String
  raw : Bool

/-- Operation kind of a definition returned by `getOperationAST`. -/
inductive OpKind where
  | query
  | mutation
  | subscription
deriving DecidableEq

/-- Spelling of an operation kind used in the 405 message at `src/index.ts:126`. -/
def OpKind.text : OpKind → String
  | .query => "query"
  | .mutation => "mutation"
  | .subscription => "subscription"

/-- The execution `contextValue`: the user-supplied context if set,
otherwise the request object itself (`mutableOptions.context ?? request`). -/
inductive Ctx where
  | ofUser (v : Js)
  | ofRequest

/-- An `ExecutionResult` as handled here: optional `data`, `errors`, `extensions`. -/
structure ExecResult where
  data : Option Js := none
  errors : Option (List GErr) := none
  extensions : Option Js := none

/-- Loose-equality test `result.data == null`: true when `data` is absent
(undefined) or present but `null`. -/
def ExecResult.dataNullish (r : ExecResult) : Bool :=
  match r.data with
  | none => true
  | some .null => true
  | some _ => false

/-- The argument record passed to `executeFn` at `src/index.ts:134`.
Schemas, documents and resolvers are opaque to the middleware and are
modelled by identifiers. -/
structure ExecArgs where
  schema : Nat
  document : Nat
  rootValue : Option Js
  contextValue : Ctx
  variableValues : Option Js
  operationName : Option String
  fieldResolver : Option Nat
  typeResolver : Option Nat

/-- The argument record passed to the `extensions` hook at `src/index.ts:153`. -/
structure ExtArgs where
  document : Nat
  variablesV : Option Js
  operationName : Option String
  result : ExecResult
  context : Ctx

/-- GraphiQL display options as far as the middleware manipulates them:
the `fetcher.url` entry merged at `src/index.ts:252`. -/
structure GProps where
  fetcherUrl : Option String

/-- The user's `graphiql` option before resolution: a boolean, absent, an
object, or some other value (whose JavaScript truthiness is recorded). -/
inductive GraphiqlRaw where
  | boolean (b : Bool)
  | undef
  | obj (props : GProps)
  | other (jsTruthy : Bool)

/-- JavaScript `Boolean(userOptions.graphiql)`. -/
def GraphiqlRaw.truthy : GraphiqlRaw → Bool
  | .boolean b => b
  | .undef => false
  | .obj _ => true
  | .other b => b

/-- The fields of a user options object (`UserOptions` of `src/interfaces.ts`).
`schema = none` models a missing or non-object schema; function-valued options
are `none` when the engine default is to be used. -/
structure UserOpts where
  schema : Option Nat
  graphiql : GraphiqlRaw
  rootValue : Option Js
  context : Option Js
  pretty : Option Bool
  extensions : Option (ExtArgs → Except Thrown (Option Js))
  validationRules : Option (List Nat)
  validateFn : Option (Nat → Nat → List Nat → Except Thrown (List GErr))
  executeFn : Option (ExecArgs → Except Thrown ExecResult)
  formatErrorFn : Option (GErr → Js)
  parseFn : Option (String → Except Thrown Nat)
  fieldResolver : Option Nat
  typeResolver : Option Nat

/-- The value an options source resolves to: either a genuine options object
or something `devAssertIsObject` rejects. -/
inductive UserOptionsRaw where
  | notObject
  | obj (o : UserOpts)

/-- The `ProvidedOptions` argument of `graphqlHTTP`: a (promised) value, or a
function of the request called without and then with the extracted params
(`src/index.ts:51`). A rejected promise or throwing function is `.error`. -/
inductive OptionsSource where
  | value (v : Except Thrown UserOptionsRaw)
  | fn (f : Request → Option Params → Except Thrown UserOptionsRaw)

/-- Fully resolved per-request options (`UsableOptions` of `src/interfaces.ts`),
as built by `resolveOptions`. -/
structure Usable where
  schema : Nat
  graphiql : GProps
  rootValue : Option Js
  context : Ctx
  pretty : Bool
  extensions : Option (ExtArgs → Except Thrown (Option Js))
  validationRules : List Nat
  validateFn : Nat → Nat → List Nat → Except Thrown (List GErr)
  executeFn : ExecArgs → Except Thrown ExecResult
  formatErrorFn : Option (GErr → Js)
  parseFn : String → Except Thrown Nat
  fieldResolver : Option Nat
  typeResolver : Option Nat

/-- The `FormattedExecutionResult` built at `src/index.ts:215`: the result with
each error projected through `formatErrorFn` or `GraphQLError#toJSON`
(formatted errors are JSON values). -/
structure FmtResult where
  data : Option Js
  errors : Option (List Js)
  extensions : Option Js

/-- The external world: the GraphQL engine, the JSON/zlib/charset platform
primitives and the GraphiQL renderer, plus the user's options source. -/
structure Env where
  options : OptionsSource
  jsonParse : String → Option Js
  validateSchema : Nat → List GErr
  specifiedRules : List Nat
  getOperationAST : Nat → Option String → Option OpKind
  renderGraphiQL : Params → GProps → String
  toJSON : GErr → Js
  stringifyPretty : FmtResult → String
  bufferToString : String → List Nat → String
  inflate : List (List Nat) → Except Thrown (List (List Nat))
  gunzip : List (List Nat) → Except Thrown (List (List Nat))
  parse : String → Except Thrown Nat
  validate : Nat → Nat → List Nat → List GErr
  execute : ExecArgs → Except Thrown ExecResult

/-- A terminal write to the response: the GraphiQL HTML page
(`respondWithGraphiQL`), a pretty-printed JSON body (`sendResponse`), or
`response.json`. -/
inductive WriteEv where
  | html (payload : String)
  | jsonPretty (body : FmtResult)
  | json (body : FmtResult)

/-- Shape classifier for a response write. -/
inductive WKind where
  | html
  | jsonPretty
  | json
deriving DecidableEq

/-- Kind of a write event. -/
def WriteEv.kind : WriteEv → WKind
  | .html _ => .html
  | .jsonPretty _ => .jsonPretty
  | .json _ => .json

/-- The response object: express initialises `statusCode` to 200; headers are
set with `setHeader`; `writes` records each terminal write
(`response.end` / `response.json`). -/
structure Resp where
  statusCode : Nat := 200
  headers : List (String × String) := []
  writes : List WriteEv := []

/-- Per-request middleware state: the response, the `result` variable of
`graphqlMiddleware` (initially `{}`), and the record of `executeFn` calls. -/
structure MidSt where
  resp : Resp := {}
  result : ExecResult := {}
  execCalls : List ExecArgs := []

/-- The `setHeader` semantics: replace an existing header of the same name,
otherwise append. -/
def setHeader (hs : List (String × String)) (k v : String) : List (String × String) :=
  if hs.any (fun p => p.1 == k) then
    hs.map (fun p => if p.1 == k then (k, v) else p)
  else hs ++ [(k, v)]

/-- Header lookup on a response. -/
def getHeader (r : Resp) (k : String) : Option String :=
  (r.headers.find? (fun p => p.1 == k)).map (·.2)

/-- Apply `response.setHeader` within the middleware state. -/
def setRespHeader (st : MidSt) (k v : String) : MidSt :=
  { st with resp := { st.resp with headers := setHeader st.resp.headers k v } }

/-- Unconditional `response.statusCode = n` assignment. -/
def withStatus (st : MidSt) (n : Nat) : MidSt :=
  { st with resp := { st.resp with statusCode := n } }

/-- Streamed decompression (`decompressed`, `src/parseBody.ts:105`): choose the
stream by `content-encoding` (identity / deflate / gzip, otherwise 415),
accumulate chunks with the 100 KiB ceiling, and decode the concatenation with
the given charset. -/
def decompressed (env : Env) (req : Request) (charset : String) (maxSize : Nat) :
    Except Thrown String :=
  let streamE : Except Thrown (List (List Nat)) :=
    match req.contentEncoding.map strToLower with
    | none => .ok req.chunks
    | some "identity" => .ok req.chunks
    | some "deflate" => env.inflate req.chunks
    | some "gzip" => env.gunzip req.chunks
    | some enc => .error (e415 ("Unsupported content-encoding \"" ++ enc ++ "\"."))
  match streamE with
  | .error t => .error t
  | .ok chunks =>
    match readChunks chunks 0 maxSize with
    | .error t => .error t
    | .ok kept => .ok (env.bufferToString charset kept.flatten)

/-- Read and decode a request body (`readBody`, `src/parseBody.ts:85`):
take the `charset` parameter of `content-type` lowercased (default `utf-8`),
reject everything but `utf8`, `utf-8` and `utf16le` with a 415, then
decompress and decode. -/
def readBody (env : Env) (req : Request) (ti : CType) : Except Thrown String :=
  let charset := (ti.charset.map strToLower).getD "utf-8"
  if charset ≠ "utf8" ∧ charset ≠ "utf-8" ∧ charset ≠ "utf16le" then
    .error (e415 ("Unsupported charset \"" ++ strToUpper charset ++ "\"."))
  else decompressed env req charset 102400

/-- The `jsonObjRegex` test of `src/parseBody.ts:77`: after RFC 7159
whitespace, the first character must be an opening brace. -/
def jsonObjTest (s : String) : Bool :=
  match s.toList.dropWhile
    (fun c => c == ' ' || c == '\t' || c == '\n' || c == '\r') with
  | [] => false
  | c :: _ => c == Char.ofNat 123

/-- JSON body branch of `parseBody`: brace test, then `JSON.parse`
(a brace-initial string can only parse to an object); any failure is the
400 of `src/parseBody.ts:53`. -/
def parseJsonBody (env : Env) (rawBody : String) :
    Except Thrown (List (String × Js)) :=
  if jsonObjTest rawBody then
    match env.jsonParse rawBody with
    | some (.obj fields) => .ok fields
    | some _ => .ok []
    | none => .error (e400 "POST body sent invalid JSON.")
  else .error (e400 "POST body sent invalid JSON.")

/-- Decoding of `application/x-www-form-urlencoded` bodies
(`new URLSearchParams(rawBody)`, percent-decoding elided). -/
def formDecode (s : String) : List (String × String) :=
  (s.splitOn "&").filterMap fun kv =>
    if kv = "" then none
    else
      match kv.splitOn "=" with
      | [] => none
      | k :: rest => some (k, String.intercalate "=" rest)

/-- The `reduce` of `src/parseBody.ts:55`: build the keyed object, later
duplicate keys overwriting earlier ones. -/
def buildFormObj (pairs : List (String × String)) : List (String × Js) :=
  pairs.foldl
    (fun acc kv =>
      if acc.any (fun p => p.1 == kv.1) then
        acc.map (fun p => if p.1 == kv.1 then (kv.1, Js.str kv.2) else p)
      else acc ++ [(kv.1, Js.str kv.2)])
    []

/-- Body parsing (`parseBody`, `src/parseBody.ts:12`), in source order:
reuse a keyed object body (a `Buffer` is excluded), skip requests without a
`content-type`, reuse a string body under `application/graphql`, ignore any
other already-present body, otherwise read the stream and dispatch on the
media type. -/
def parseBody (env : Env) (req : Request) :
    Except Thrown (List (String × Js)) :=
  match req.body with
  | .keyedObj fields => .ok fields
  | body =>
    match req.contentType with
    | none => .ok []
    | some ti =>
      match body with
      | .str s =>
        if ti.type = "application/graphql" then .ok [("query", .str s)]
        else .ok []
      | .buffer _ => .ok []
      | .other => .ok []
      | .keyedObj fields => .ok fields
      | .undef =>
        match readBody env req ti with
        | .error t => .error t
        | .ok rawBody =>
          if ti.type = "application/graphql" then .ok [("query", .str rawBody)]
          else if ti.type = "application/json" then parseJsonBody env rawBody
          else if ti.type = "application/x-www-form-urlencoded" then
            .ok (buildFormObj (formDecode rawBody))
          else .ok []

/-- Resolution of user options (`resolveOptions`, `src/index.ts:239`):
assert an options object, assert a schema, compute the default GraphiQL
fetcher URL from the request, merge GraphiQL options, and fill every other
field with its default. The `devAssert` failures are `TypeError` throws. -/
def resolveOptions (env : Env) (uo : UserOptionsRaw) (req : Request) :
    Except Thrown Usable :=
  match uo with
  | .notObject =>
    .error (.single (.err "GraphQL middleware option function must return an options object or a promise which will be resolved to an options object."))
  | .obj o =>
    match o.schema with
    | none =>
      .error (.single (.err "GraphQL middleware options must contain a schema."))
    | some schema =>
      let defaultUrl :=
        req.protocol ++ "://" ++
          (req.xForwardedHost.getD (req.host.getD "undefined")) ++
          (match req.originalUrl with
           | some u => (u.splitOn "?").headD ""
           | none => "undefined")
      let graphiqlE : Except Thrown GProps :=
        match o.graphiql with
        | .boolean _ => .ok ⟨some defaultUrl⟩
        | .undef => .ok ⟨some defaultUrl⟩
        | .obj props => .ok ⟨some (props.fetcherUrl.getD defaultUrl)⟩
        | .other _ =>
          .error (.single (.err "GraphiQL options must be either a boolean or an object."))
      match graphiqlE with
      | .error t => .error t
      | .ok gprops =>
        .ok
          { schema := schema
            graphiql := gprops
            rootValue := o.rootValue
            context := (o.context.map Ctx.ofUser).getD Ctx.ofRequest
            pretty := o.pretty.getD false
            extensions := o.extensions
            validationRules := o.validationRules.getD []
            validateFn := o.validateFn.getD (fun s d r => .ok (env.validate s d r))
            executeFn := o.executeFn.getD env.execute
            formatErrorFn := o.formatErrorFn
            parseFn := o.parseFn.getD env.parse
            fieldResolver := o.fieldResolver
            typeResolver := o.typeResolver }

/-- First matching query-string value, as `urlData.get(key)`. -/
def urlGet (req : Request) (k : String) : Option String :=
  (req.queryParams.find? (fun p => p.1 == k)).map (·.2)

/-- Property lookup on the body object returned by `parseBody`. -/
def lookupJs (bd : List (String × Js)) (k : String) : Option Js :=
  (bd.find? (fun p => p.1 == k)).map (·.2)

/-- Combined lookup `urlData.get(key) ?? bodyData[key]`
(query-string values take precedence and are strings). -/
def lookupParam (req : Request) (bd : List (String × Js)) (k : String) :
    Option Js :=
  match urlGet req k with
  | some s => some (.str s)
  | none => lookupJs bd k

/-- Parameter extraction (`getGraphQLParams`, `src/index.ts:312`): parse the
body, then take `query` / `variables` / `operationName` / `raw` with
query-string precedence; a string-valued `variables` is `JSON.parse`d (400 on
failure), a non-string non-object `variables` is dropped. -/
def getGraphQLParams (env : Env) (req : Request) : Except Thrown Params :=
  match parseBody env req with
  | .error t => .error t
  | .ok bd =>
    let query :=
      match lookupParam req bd "query" with
      | some (.str s) => some s
      | _ => none
    let variablesE : Except Thrown (Option Js) :=
      match lookupParam req bd "variables" with
      | some (.str s) =>
        match env.jsonParse s with
        | some v => .ok (some v)
        | none => .error (e400 "Variables are invalid JSON.")
      | some v => .ok (if v.typeofObject then some v else none)
      | none => .ok none
    match variablesE with
    | .error t => .error t
    | .ok variablesV =>
      let operationName :=
        match lookupParam req bd "operationName" with
        | some (.str s) => some s
        | _ => none
      let raw := (urlGet req "raw").isSome || (lookupJs bd "raw").isSome
      .ok ⟨query, variablesV, operationName, raw⟩

/-- GraphiQL display test (`canDisplayGraphiQL`, `src/index.ts:355`):
`params.raw === false && request.accepts(['json', 'html']) === 'html'`. -/
def canDisplayGraphiQL (req : Request) (params : Params) : Bool :=
  params.raw == false && req.acceptsJsonHtml == AcceptRes.html

/-- The `showGraphiQL` flag of `src/index.ts:60`:
`canDisplayGraphiQL(request, params) && Boolean(userOptions.graphiql)`. -/
def showGraphiQLOf (req : Request) (params : Params) (g : GraphiqlRaw) : Bool :=
  canDisplayGraphiQL req params && g.truthy

/-- The `graphiql` field read by `Boolean(userOptions.graphiql)`; the
`notObject` case never survives `resolveOptions`, so its value is moot. -/
def UserOptionsRaw.graphiqlField : UserOptionsRaw → GraphiqlRaw
  | .notObject => .undef
  | .obj o => o.graphiql

/-- Evaluate the options source, without params (first pass) or with them. -/
def resolveUserOptions (env : Env) (req : Request) (p : Option Params) :
    Except Thrown UserOptionsRaw :=
  match env.options with
  | .value v => v
  | .fn f => f req p

/-- States 2 to 5 of the pipeline (`src/index.ts:49`): first options pass,
parameter extraction, second (authoritative) options pass, and the
`showGraphiQL` computation. The first component is the value of the
`finalOptions` variable at the point a failure is thrown (used by the
response-formatting tail); the second is the outcome. -/
def stage1 (env : Env) (req : Request) :
    Option Usable × Except Thrown (Usable × Params × Bool) :=
  match resolveUserOptions env req none with
  | .error t => (none, .error t)
  | .ok uo1 =>
    match resolveOptions env uo1 req with
    | .error t => (none, .error t)
    | .ok fo1 =>
      match getGraphQLParams env req with
      | .error t => (some fo1, .error t)
      | .ok params =>
        match (match env.options with
               | .value _ => .ok uo1
               | .fn f => f req (some params) : Except Thrown UserOptionsRaw) with
        | .error t => (some fo1, .error t)
        | .ok uo2 =>
          match resolveOptions env uo2 req with
          | .error t => (some fo1, .error t)
          | .ok fo2 =>
            (some fo2, .ok (fo2, params, showGraphiQLOf req params uo2.graphiqlField))

/-- Outcome of the `try` body of `graphqlMiddleware`: an early `return`
(response already written), a normal fall-through to formatting, or a thrown
value heading for the catch block. -/
inductive BodyOut where
  | returned (st : MidSt)
  | done (st : MidSt)
  | threw (st : MidSt) (t : Thrown)

/-- The manual write path (`sendResponse`, `src/index.ts:364`): set
`Content-Type` and `Content-Length`, end the response with the payload. -/
def sendResp (st : MidSt) (ctype : String) (data : String) (w : WriteEv) :
    MidSt :=
  let st := setRespHeader st "Content-Type" (ctype ++ "; charset=utf-8")
  let st := setRespHeader st "Content-Length" (toString data.utf8ByteSize)
  { st with resp := { st.resp with writes := st.resp.writes ++ [w] } }

/-- Render and send the GraphiQL page
(`respondWithGraphiQL`, `src/index.ts:300`). -/
def writeGraphiQL (env : Env) (st : MidSt) (params : Params) (gprops : GProps) :
    MidSt :=
  let payload := env.renderGraphiQL params gprops
  sendResp st "text/html" payload (.html payload)

/-- The argument record built for `executeFn` at `src/index.ts:134`. -/
def execArgsOf (fo : Usable) (p : Params) (doc : Nat) : ExecArgs :=
  { schema := fo.schema
    document := doc
    rootValue := fo.rootValue
    contextValue := fo.context
    variableValues := p.variablesV
    operationName := p.operationName
    fieldResolver := fo.fieldResolver
    typeResolver := fo.typeResolver }

/-- State 14 (`src/index.ts:171`): store the result and force status 500 when
the status is still the default 200 and the result carries no data. -/
def statusFallback (st0 : MidSt) (res : ExecResult) : BodyOut :=
  let st := { st0 with result := res }
  if st.resp.statusCode = 200 ∧ res.dataNullish then .done (withStatus st 500)
  else .done st

/-- State 13 (`src/index.ts:152`): run the `extensions` hook when configured
and merge a non-undefined return value into the result under `extensions`;
a throwing hook propagates to the catch block with the executed result kept. -/
def extPhase (fo : Usable) (p : Params) (doc : Nat) (st : MidSt)
    (res0 : ExecResult) : BodyOut :=
  match fo.extensions with
  | none => statusFallback st res0
  | some f =>
    match f ⟨doc, p.variablesV, p.operationName, res0, fo.context⟩ with
    | .error t => .threw { st with result := res0 } t
    | .ok none => statusFallback st res0
    | .ok (some ev) => statusFallback st { res0 with extensions := some ev }

/-- State 12 (`src/index.ts:133`): call `executeFn`, forcing status 400 when
it throws, then hand over to the extensions hook and the status fallback. -/
def execPhase (env : Env) (fo : Usable) (p : Params) (doc : Nat) (st0 : MidSt) :
    BodyOut :=
  let args := execArgsOf fo p doc
  let st := { st0 with execCalls := st0.execCalls ++ [args] }
  match fo.executeFn args with
  | .error t => .threw (withStatus st 400) t
  | .ok res0 => extPhase fo p doc st res0

/-- States 1 and 6 to 11 of the `try` body (`src/index.ts:63`): method check,
GraphiQL short-circuit, query presence, schema validation, parse, document
validation and the GET operation gate, in source order. -/
def afterParams (env : Env) (req : Request) (fo : Usable) (p : Params)
    (sg : Bool) : BodyOut :=
  let st0 : MidSt := {}
  if req.method ≠ "GET" ∧ req.method ≠ "POST" then
    .threw st0
      (.single (.http ⟨405, "GraphQL only supports GET and POST requests.",
        [("Allow", "GET, POST")]⟩))
  else if sg then .returned (writeGraphiQL env st0 p fo.graphiql)
  else
    match p.query with
    | none => .threw st0 (e400 "Must provide query string.")
    | some q =>
      let sve := env.validateSchema fo.schema
      if sve.isEmpty = false then
        .threw (withStatus st0 500) (.arr (sve.map ThrownItem.gql))
      else
        match fo.parseFn q with
        | .error t => .threw (withStatus st0 400) t
        | .ok doc =>
          match fo.validateFn fo.schema doc
              (env.specifiedRules ++ fo.validationRules) with
          | .error t => .threw st0 t
          | .ok verrs =>
            if verrs.isEmpty = false then
              .threw (withStatus st0 400) (.arr (verrs.map ThrownItem.gql))
            else
              if req.method = "GET" then
                match env.getOperationAST doc p.operationName with
                | some op =>
                  if op ≠ OpKind.query then
                    if sg then .returned (writeGraphiQL env st0 p fo.graphiql)
                    else
                      .threw st0
                        (.single (.http ⟨405,
                          "Can only perform a " ++ op.text ++
                            " operation from a POST request.",
                          [("Allow", "POST")]⟩))
                  else execPhase env fo p doc st0
                | none => execPhase env fo p doc st0
              else execPhase env fo p doc st0

/-- The HTTP status a caught value maps to (`src/index.ts:180`):
a `GraphQLError` takes `originalError.status ?? 500`, an `HttpError` its own
status, anything else 500. -/
def mapStatusOf : ThrownItem → Nat
  | .gql e =>
    match e.originalError with
    | .withStatus n => n
    | _ => 500
  | .http e => e.status
  | .err _ => 500
  | .nonErr _ => 500

/-- The `GraphQLError` a caught value is wrapped into (`src/index.ts:189`):
a `GraphQLError` passes through; an `HttpError` or generic value is wrapped
with the (possibly `httpError`-coerced) original as `originalError`. -/
def toGErrOf : ThrownItem → GErr
  | .gql e => e
  | .http e => ⟨e.message, .withStatus e.status⟩
  | .err m => ⟨m, .withStatus 500⟩
  | .nonErr s => ⟨s, .withStatus 500⟩

/-- Response-state effect of mapping one caught value: copy an `HttpError`'s
headers onto the response, then set the status to the mapped status only when
the current status is below 400 (`src/index.ts:207`). -/
def catchStep (st : MidSt) (item : ThrownItem) : MidSt :=
  let st :=
    match item with
    | .http e => e.headers.foldl (fun s kv => setRespHeader s kv.1 kv.2) st
    | _ => st
  if st.resp.statusCode < 400 then
    withStatus st (mapStatusOf item)
  else st

/-- The catch block (`src/index.ts:174`): wrap a non-array throw in a
singleton list, map every element, and store the mapped `GraphQLError`s in
`result.errors`. -/
def applyCatch (st : MidSt) (t : Thrown) : MidSt :=
  let items := match t with | .single i => [i] | .arr is => is
  let st := items.foldl catchStep st
  { st with result := { st.result with errors := some (items.map toGErrOf) } }

/-- Response formatting and the final write (`src/index.ts:215`): project each
error through `formatErrorFn` when configured (else `toJSON`), then either
`sendResponse` the two-space-indented JSON when `finalOptions.pretty === true`
or use `response.json`. -/
def finish (env : Env) (foOpt : Option Usable) (st : MidSt) : MidSt :=
  let fmtE : GErr → Js := fun e =>
    match foOpt with
    | some fo =>
      match fo.formatErrorFn with
      | some f => f e
      | none => env.toJSON e
    | none => env.toJSON e
  let fres : FmtResult :=
    ⟨st.result.data, st.result.errors.map (List.map fmtE),
      st.result.extensions⟩
  match foOpt with
  | some fo =>
    if fo.pretty then
      sendResp st "application/json" (env.stringifyPretty fres)
        (.jsonPretty fres)
    else { st with resp := { st.resp with writes := st.resp.writes ++ [.json fres] } }
  | none => { st with resp := { st.resp with writes := st.resp.writes ++ [.json fres] } }

/-- The request handler returned by `graphqlHTTP` (`src/index.ts:39`):
run states 1 to 14, route any thrown value through the catch block, and
always finish by formatting and writing exactly one response. An early
GraphiQL `return` skips the formatting tail. -/
def graphqlMiddleware (env : Env) (req : Request) : MidSt :=
  match stage1 env req with
  | (foOpt, .error t) => finish env foOpt (applyCatch {} t)
  | (_, .ok (fo, p, sg)) =>
    match afterParams env req fo p sg with
    | .returned st => st
    | .done st => finish env (some fo) st
    | .threw st t => finish env (some fo) (applyCatch st t)

/-- A minimal user options object: a schema and nothing else. -/
def baseUserOpts : UserOpts :=
  { schema := some 0, graphiql := .boolean false, rootValue := none,
    context := none, pretty := none, extensions := none,
    validationRules := none, validateFn := none, executeFn := none,
    formatErrorFn := none, parseFn := none, fieldResolver := none,
    typeResolver := none }

/-- A concrete environment used to instantiate theorems. -/
def baseEnv : Env :=
  { options := .value (.ok (.obj baseUserOpts))
    jsonParse := fun _ => none
    validateSchema := fun _ => []
    specifiedRules := []
    getOperationAST := fun _ _ => none
    renderGraphiQL := fun _ _ => "graphiql-page"
    toJSON := fun e => .str e.message
    stringifyPretty := fun _ => "pretty"
    bufferToString := fun _ _ => "x"
    inflate := .ok
    gunzip := .ok
    parse := fun _ => .ok 0
    validate := fun _ _ _ => []
    execute := fun _ => .ok {} }

/-- A concrete plain POST request with no query string and no body. -/
def baseReq : Request :=
  { method := "POST", queryParams := [], body := .undef, contentType := none,
    contentEncoding := none, acceptsJsonHtml := .json, protocol := "http",
    xForwardedHost := none, host := none, originalUrl := none, chunks := [] }

/-- The options object a `baseEnv`-style environment resolves to for a
request derived from `baseReq` (default GraphiQL fetcher URL included). -/
def usableFor (e : Env) : Usable :=
  { schema := 0
    graphiql := ⟨some "http://undefinedundefined"⟩
    rootValue := none
    context := .ofRequest
    pretty := false
    extensions := none
    validationRules := []
    validateFn := fun s d r => .ok (e.validate s d r)
    executeFn := e.execute
    formatErrorFn := none
    parseFn := e.parse
    fieldResolver := none
    typeResolver := none }
/-- A request whose body stream is a single chunk of exactly 102400 bytes. -/
def reqAtLimit : Request :=
  { baseReq with chunks := [List.replicate 102400 0] }
/-- A request whose body is a Buffer holding valid JSON, with an
`application/json` content type. -/
def reqBufferBody : Request :=
  { baseReq with
    body := .buffer [123, 34, 113, 117, 101, 114, 121, 34, 58, 34, 113, 34, 125],
    contentType := some ⟨"application/json", none⟩ }
/-- A state whose status was already forced to 500 by schema validation. -/
def st500 : MidSt :=
  { resp := { statusCode := 500, headers := [], writes := [] },
    result := {}, execCalls := [] }
/-- A request carrying `variables=7` in its query string. -/
def reqC9 : Request :=
  { baseReq with queryParams := [("variables", "7")] }
/-- An environment whose `JSON.parse` decodes exactly the string `7`. -/
def envC9 : Env :=
  { baseEnv with
    jsonParse := fun s => if s = "7" then some (.num 7) else none }
/-- A PUT request with no body, on which options and params succeed. -/
def reqC3w : Request := { baseReq with method := "PUT" }
/-- A PUT request carrying an `application/json` body that is not valid
JSON. -/
def reqC3 : Request :=
  { baseReq with
    method := "PUT"
    contentType := some ⟨"application/json", none⟩
    chunks := [[110, 111]] }
/-- An environment whose engine reports every operation as a mutation. -/
def envC4 : Env :=
  { baseEnv with getOperationAST := fun _ _ => some .mutation }
/-- A GET request carrying a mutation query string. -/
def reqC4 : Request :=
  { baseReq with
    method := "GET"
    queryParams := [("query", "mutationdoc")] }
/-- An environment with the GraphiQL toggle set to `true`. -/
def envC6 : Env :=
  { baseEnv with
    options := .value (.ok (.obj { baseUserOpts with
      graphiql := .boolean true })) }
/-- A GET request preferring HTML, with no query parameter at all. -/
def reqC6w : Request :=
  { baseReq with
    method := "GET"
    acceptsJsonHtml := .html }
/-- A DELETE request that otherwise satisfies every GraphiQL condition. -/
def reqC6 : Request :=
  { baseReq with
    method := "DELETE"
    acceptsJsonHtml := .html }

/-- Unfolding of `sizeSum` on a cons. -/
theorem sizeSum_cons (c : List Nat) (cs : List (List Nat)) :
    sizeSum (c :: cs) = c.length + sizeSum cs := by
  simp [sizeSum]

/-- When the accumulated size never crosses the ceiling, the chunk loop keeps
every chunk. -/
theorem readChunks_ok (cs : List (List Nat)) (acc maxS : Nat)
    (h : acc + sizeSum cs ≤ maxS) : readChunks cs acc maxS = .ok cs := by
  induction cs generalizing acc with
  | nil => simp [readChunks]
  | cons c cs ih =>
    rw [sizeSum_cons] at h
    unfold readChunks
    have hle : ¬ acc + c.length > maxS := by omega
    simp only [hle, if_false]
    rw [ih (acc + c.length) (by omega)]

/-- When the total size crosses the ceiling (and the accumulator has not yet),
the chunk loop raises the 413 error. -/
theorem readChunks_err (cs : List (List Nat)) (acc maxS : Nat)
    (hacc : acc ≤ maxS) (h : maxS < acc + sizeSum cs) :
    readChunks cs acc maxS = .error e413 := by
  induction cs generalizing acc with
  | nil => simp [sizeSum] at h; omega
  | cons c cs ih =>
    rw [sizeSum_cons] at h
    unfold readChunks
    by_cases hc : acc + c.length > maxS
    · simp only [hc, if_true]
    · simp only [hc, if_false]
      rw [ih (acc + c.length) (by omega) (by omega)]

/-- C8: with an identity content-encoding, a body whose total size is within
the 100 KiB (102400 byte) ceiling is read in full and decoded, while a body
whose total size exceeds the ceiling yields the 413 error and no data. -/
theorem body_size_boundary (env : Env) (req : Request) (charset : String)
    (henc : req.contentEncoding = none) :
    (sizeSum req.chunks ≤ 102400 →
      decompressed env req charset 102400 =
        .ok (env.bufferToString charset req.chunks.flatten)) ∧
    (102400 < sizeSum req.chunks →
      decompressed env req charset 102400 = .error e413) := by
  constructor
  · intro h
    unfold decompressed
    rw [henc]
    simp only [Option.map_none']
    rw [readChunks_ok req.chunks 0 102400 (by omega)]
  · intro h
    unfold decompressed
    rw [henc]
    simp only [Option.map_none']
    rw [readChunks_err req.chunks 0 102400 (by omega) (by omega)]

/-- Witness for `body_size_boundary`: the exactly-100 KiB body succeeds. -/
theorem body_size_boundary_witness :
    reqAtLimit.contentEncoding = none ∧
    sizeSum reqAtLimit.chunks ≤ 102400 ∧
    decompressed baseEnv reqAtLimit "utf-8" 102400 = .ok "x" := by
  have h102 : sizeSum reqAtLimit.chunks = 102400 := by
    show sizeSum [List.replicate 102400 0] = 102400
    rw [sizeSum_cons, List.length_replicate]
    simp [sizeSum]
  refine ⟨rfl, le_of_eq h102, ?_⟩
  exact (body_size_boundary baseEnv reqAtLimit "utf-8" rfl).1 (le_of_eq h102)

/-- C7 (amended): the body is decoded with the lowercased `charset` parameter
of `content-type` (defaulting to `utf-8` when absent); the accepted values are
exactly `utf8`, `utf-8` and `utf16le`, and any other value — including the
hyphenated spelling `utf-16le` — fails with a 415 before the body is parsed. -/
theorem readBody_charset (env : Env) (req : Request) (ti : CType) :
    (((ti.charset.map strToLower).getD "utf-8") = "utf8" ∨
        ((ti.charset.map strToLower).getD "utf-8") = "utf-8" ∨
        ((ti.charset.map strToLower).getD "utf-8") = "utf16le" →
      readBody env req ti =
        decompressed env req ((ti.charset.map strToLower).getD "utf-8")
          102400) ∧
    (((ti.charset.map strToLower).getD "utf-8") ≠ "utf8" ∧
        ((ti.charset.map strToLower).getD "utf-8") ≠ "utf-8" ∧
        ((ti.charset.map strToLower).getD "utf-8") ≠ "utf16le" →
      readBody env req ti =
        .error (e415 ("Unsupported charset \"" ++
          strToUpper ((ti.charset.map strToLower).getD "utf-8") ++ "\"."))) := by
  constructor
  · intro h
    unfold readBody
    have hcond : ¬ (((ti.charset.map strToLower).getD "utf-8") ≠ "utf8" ∧
        ((ti.charset.map strToLower).getD "utf-8") ≠ "utf-8" ∧
        ((ti.charset.map strToLower).getD "utf-8") ≠ "utf16le") := by
      tauto
    rw [if_neg hcond]
  · intro h
    unfold readBody
    rw [if_pos h]

/-- Witness for `readBody_charset`: a `charset=UTF8` parameter lowercases to
the accepted `utf8` and the body is decoded with it. -/
theorem readBody_charset_witness :
    ((((some "UTF8").map strToLower).getD "utf-8") = "utf8" ∨
        (((some "UTF8").map strToLower).getD "utf-8") = "utf-8" ∨
        (((some "UTF8").map strToLower).getD "utf-8") = "utf16le") ∧
    readBody baseEnv baseReq ⟨"application/json", some "UTF8"⟩ =
      decompressed baseEnv baseReq "utf8" 102400 := by
  refine ⟨Or.inl (by decide), ?_⟩
  exact (readBody_charset baseEnv baseReq ⟨"application/json", some "UTF8"⟩).1
    (Or.inl (by decide))

/-- Counterexample to C7 as stated: the hyphenated charset value `utf-16le`
is not supported — it is rejected with a 415 — although the claim lists
`utf-16le` among the supported charsets. -/
theorem utf16le_hyphen_rejected :
    readBody baseEnv baseReq ⟨"application/json", some "utf-16le"⟩ =
      .error (e415 "Unsupported charset \"UTF-16LE\".") := by
  rfl

/-- C10: when an earlier middleware left a `Buffer` in `request.body`,
`parseBody` contributes nothing: the Buffer is not reused as a keyed object,
the stream is never read, and the result is the empty mapping — whatever the
buffer contents, the `content-type` header and the stream chunks. -/
theorem parseBody_buffer (env : Env) (req : Request) (bytes : List Nat)
    (hb : req.body = .buffer bytes) : parseBody env req = .ok [] := by
  unfold parseBody
  rw [hb]
  cases req.contentType with
  | none => rfl
  | some ti => rfl

/-- Witness for `parseBody_buffer` at a Buffer containing valid JSON under
`application/json`. -/
theorem parseBody_buffer_witness :
    reqBufferBody.body =
      .buffer [123, 34, 113, 117, 101, 114, 121, 34, 58, 34, 113, 34, 125] ∧
    parseBody baseEnv reqBufferBody = .ok [] := by
  refine ⟨rfl, ?_⟩
  exact parseBody_buffer baseEnv reqBufferBody _ rfl

/-- C5: `canDisplayGraphiQL` is true exactly when `params.raw` is `false` and
`request.accepts(['json', 'html'])` chose `html`; `raw = true` forces JSON
mode whatever the Accept header; and the page is shown only when additionally
the user's `graphiql` toggle is truthy (`showGraphiQL`). -/
theorem canDisplayGraphiQL_spec (req : Request) (p : Params) :
    (canDisplayGraphiQL req p = true ↔
      p.raw = false ∧ req.acceptsJsonHtml = AcceptRes.html) ∧
    (p.raw = true → canDisplayGraphiQL req p = false) ∧
    (∀ g : GraphiqlRaw,
      showGraphiQLOf req p g = (canDisplayGraphiQL req p && g.truthy)) := by
  refine ⟨?_, ?_, fun g => rfl⟩
  · unfold canDisplayGraphiQL
    constructor
    · intro h
      rcases Bool.and_eq_true .. |>.mp h with ⟨h1, h2⟩
      exact ⟨by simpa using h1, by simpa using h2⟩
    · rintro ⟨h1, h2⟩
      simp [h1, h2]
  · intro h
    unfold canDisplayGraphiQL
    simp [h]

/-- Witness for `canDisplayGraphiQL_spec`: with `raw = true` the page is
refused even though the request prefers HTML. -/
theorem canDisplayGraphiQL_spec_witness :
    canDisplayGraphiQL
      { baseReq with acceptsJsonHtml := .html }
      ⟨none, none, none, true⟩ = false := by
  exact (canDisplayGraphiQL_spec { baseReq with acceptsJsonHtml := .html }
    ⟨none, none, none, true⟩).2.1 rfl

/-- Folding header copies over a state changes neither the status code, the
writes, the result, nor the execute-call record. -/
theorem foldHeaders_preserves (hs : List (String × String)) (st : MidSt) :
    (hs.foldl (fun s kv => setRespHeader s kv.1 kv.2) st).resp.statusCode =
        st.resp.statusCode ∧
    (hs.foldl (fun s kv => setRespHeader s kv.1 kv.2) st).resp.writes =
        st.resp.writes ∧
    (hs.foldl (fun s kv => setRespHeader s kv.1 kv.2) st).result =
        st.result ∧
    (hs.foldl (fun s kv => setRespHeader s kv.1 kv.2) st).execCalls =
        st.execCalls := by
  induction hs generalizing st with
  | nil => exact ⟨rfl, rfl, rfl, rfl⟩
  | cons kv hs ih =>
    simpa using ih (setRespHeader st kv.1 kv.2)

/-- One catch-mapping step leaves a status at or above 400 untouched. -/
theorem catchStep_status_high (st : MidSt) (item : ThrownItem)
    (h : 400 ≤ st.resp.statusCode) :
    (catchStep st item).resp.statusCode = st.resp.statusCode := by
  cases item with
  | http e =>
    have hp := (foldHeaders_preserves e.headers st).1
    unfold catchStep
    dsimp only
    rw [if_neg (by rw [hp]; omega)]
    exact hp
  | gql e =>
    unfold catchStep
    dsimp only
    rw [if_neg (by omega)]
  | err m =>
    unfold catchStep
    dsimp only
    rw [if_neg (by omega)]
  | nonErr s =>
    unfold catchStep
    dsimp only
    rw [if_neg (by omega)]

/-- One catch-mapping step changes the status only when it was below 400. -/
theorem catchStep_status_changed (st : MidSt) (item : ThrownItem)
    (h : (catchStep st item).resp.statusCode ≠ st.resp.statusCode) :
    st.resp.statusCode < 400 := by
  by_contra hge
  exact h (catchStep_status_high st item (by omega))

/-- Folding catch-mapping steps never touches a status at or above 400. -/
theorem foldCatch_status_high (items : List ThrownItem) (st : MidSt)
    (h : 400 ≤ st.resp.statusCode) :
    (items.foldl catchStep st).resp.statusCode = st.resp.statusCode := by
  induction items generalizing st with
  | nil => rfl
  | cons i items ih =>
    have h1 := catchStep_status_high st i h
    rw [List.foldl_cons]
    rw [ih (catchStep st i) (by omega)]
    exact h1

/-- C2: during error mapping, the response status is set to a mapped error's
status only when no status of 400 or above was already set — once an earlier
stage set a status at or above 400 (for instance the 500 forced by schema
validation), the catch block never changes it. -/
theorem applyCatch_no_downgrade (st : MidSt) (t : Thrown) :
    (400 ≤ st.resp.statusCode →
      (applyCatch st t).resp.statusCode = st.resp.statusCode) ∧
    ((applyCatch st t).resp.statusCode ≠ st.resp.statusCode →
      st.resp.statusCode < 400) := by
  constructor
  · intro h
    unfold applyCatch
    exact foldCatch_status_high _ st h
  · intro h
    by_contra hlt
    exact h (by
      unfold applyCatch
      exact foldCatch_status_high _ st (by omega))

/-- Witness for `applyCatch_no_downgrade`: a later 400-class document
validation error does not downgrade an earlier 500. -/
theorem applyCatch_no_downgrade_witness :
    400 ≤ st500.resp.statusCode ∧
    (applyCatch st500
        (.arr [.gql ⟨"validation error", .withStatus 400⟩])).resp.statusCode =
      st500.resp.statusCode := by
  exact ⟨by decide,
    (applyCatch_no_downgrade st500
      (.arr [.gql ⟨"validation error", .withStatus 400⟩])).1 (by decide)⟩

/-- One catch-mapping step never touches the writes, the execute-call record
or the result data. -/
theorem catchStep_preserves (st : MidSt) (item : ThrownItem) :
    (catchStep st item).resp.writes = st.resp.writes ∧
    (catchStep st item).execCalls = st.execCalls := by
  cases item with
  | http e =>
    have hp := foldHeaders_preserves e.headers st
    unfold catchStep
    dsimp only
    split <;> exact ⟨hp.2.1, hp.2.2.2⟩
  | gql e =>
    unfold catchStep
    dsimp only
    split <;> exact ⟨rfl, rfl⟩
  | err m =>
    unfold catchStep
    dsimp only
    split <;> exact ⟨rfl, rfl⟩
  | nonErr s =>
    unfold catchStep
    dsimp only
    split <;> exact ⟨rfl, rfl⟩

/-- Folded catch-mapping steps never touch writes or the execute-call record. -/
theorem foldCatch_preserves (items : List ThrownItem) (st : MidSt) :
    (items.foldl catchStep st).resp.writes = st.resp.writes ∧
    (items.foldl catchStep st).execCalls = st.execCalls := by
  induction items generalizing st with
  | nil => exact ⟨rfl, rfl⟩
  | cons i items ih =>
    rw [List.foldl_cons]
    have h1 := catchStep_preserves st i
    have h2 := ih (catchStep st i)
    exact ⟨h2.1.trans h1.1, h2.2.trans h1.2⟩

/-- The catch block never touches writes or the execute-call record. -/
theorem applyCatch_preserves (st : MidSt) (t : Thrown) :
    (applyCatch st t).resp.writes = st.resp.writes ∧
    (applyCatch st t).execCalls = st.execCalls := by
  unfold applyCatch
  cases t with
  | single i => exact foldCatch_preserves [i] st
  | arr is => exact foldCatch_preserves is st

/-- Response formatting appends exactly one write and preserves the status,
the headers' other entries, and the execute-call record. -/
theorem finish_shape (env : Env) (foOpt : Option Usable) (st : MidSt) :
    (finish env foOpt st).resp.writes.length = st.resp.writes.length + 1 ∧
    (finish env foOpt st).resp.statusCode = st.resp.statusCode ∧
    (finish env foOpt st).execCalls = st.execCalls := by
  unfold finish
  cases foOpt with
  | none => simp
  | some fo =>
    dsimp only
    split
    · unfold sendResp setRespHeader
      simp
    · simp

/-- The status fallback keeps the writes and the execute-call record. -/
theorem statusFallback_shape (st0 : MidSt) (res : ExecResult) :
    match statusFallback st0 res with
    | .done st =>
        st.resp.writes = st0.resp.writes ∧ st.execCalls = st0.execCalls
    | _ => False := by
  unfold statusFallback
  dsimp only
  by_cases hc : st0.resp.statusCode = 200 ∧ res.dataNullish = true
  · rw [if_pos hc]
    exact ⟨rfl, rfl⟩
  · rw [if_neg hc]
    exact ⟨rfl, rfl⟩

/-- The extensions phase keeps the writes and the execute-call record. -/
theorem extPhase_shape (fo : Usable) (p : Params) (doc : Nat) (st : MidSt)
    (res0 : ExecResult) :
    match extPhase fo p doc st res0 with
    | .returned _ => False
    | .done st1 =>
        st1.resp.writes = st.resp.writes ∧ st1.execCalls = st.execCalls
    | .threw st1 _ =>
        st1.resp.writes = st.resp.writes ∧ st1.execCalls = st.execCalls := by
  unfold extPhase
  cases hext : fo.extensions with
  | none =>
    dsimp only
    have h := statusFallback_shape st res0
    cases hsf : statusFallback st res0 with
    | returned st1 => rw [hsf] at h; exact False.elim h
    | done st1 => rw [hsf] at h; exact h
    | threw st1 t => rw [hsf] at h; exact False.elim h
  | some f =>
    dsimp only
    cases h2 : f ⟨doc, p.variablesV, p.operationName, res0, fo.context⟩ with
    | error t => exact ⟨rfl, rfl⟩
    | ok ext =>
      cases ext with
      | none =>
        dsimp only
        have h := statusFallback_shape st res0
        cases hsf : statusFallback st res0 with
        | returned st1 => rw [hsf] at h; exact False.elim h
        | done st1 => rw [hsf] at h; exact h
        | threw st1 t => rw [hsf] at h; exact False.elim h
      | some ev =>
        dsimp only
        have h := statusFallback_shape st { res0 with extensions := some ev }
        cases hsf : statusFallback st { res0 with extensions := some ev } with
        | returned st1 => rw [hsf] at h; exact False.elim h
        | done st1 => rw [hsf] at h; exact h
        | threw st1 t => rw [hsf] at h; exact False.elim h

/-- Every outcome of the execute / extensions / status-fallback phase keeps
the writes of the incoming state and appends exactly the one execute call. -/
theorem execPhase_shape (env : Env) (fo : Usable) (p : Params) (doc : Nat)
    (st0 : MidSt) :
    match execPhase env fo p doc st0 with
    | .returned _ => False
    | .done st =>
        st.resp.writes = st0.resp.writes ∧
        st.execCalls = st0.execCalls ++ [execArgsOf fo p doc]
    | .threw st _ =>
        st.resp.writes = st0.resp.writes ∧
        st.execCalls = st0.execCalls ++ [execArgsOf fo p doc] := by
  unfold execPhase
  dsimp only
  cases h1 : fo.executeFn (execArgsOf fo p doc) with
  | error t => exact ⟨rfl, rfl⟩
  | ok res0 =>
    dsimp only
    have h := extPhase_shape fo p doc
      { st0 with execCalls := st0.execCalls ++ [execArgsOf fo p doc] } res0
    cases hep : extPhase fo p doc
        { st0 with execCalls := st0.execCalls ++ [execArgsOf fo p doc] } res0 with
    | returned st1 => rw [hep] at h; exact False.elim h
    | done st1 =>
      rw [hep] at h
      exact ⟨h.1, h.2⟩
    | threw st1 t =>
      rw [hep] at h
      exact ⟨h.1, h.2⟩

/-- Started from the empty state, the execute phase writes nothing and every
recorded execute call carries the extracted `variables` as `variableValues`. -/
theorem execPhase_vars (env : Env) (fo : Usable) (p : Params) (doc : Nat) :
    match execPhase env fo p doc ({} : MidSt) with
    | .returned _ => False
    | .done st =>
        st.resp.writes = [] ∧
        ∀ a ∈ st.execCalls, a.variableValues = p.variablesV
    | .threw st _ =>
        st.resp.writes = [] ∧
        ∀ a ∈ st.execCalls, a.variableValues = p.variablesV := by
  have h := execPhase_shape env fo p doc {}
  cases hep : execPhase env fo p doc ({} : MidSt) with
  | returned st => rw [hep] at h; exact False.elim h
  | done st =>
    rw [hep] at h
    refine ⟨h.1, fun a ha => ?_⟩
    rw [h.2] at ha
    simp only [List.nil_append, List.mem_singleton] at ha
    rw [ha]
    rfl
  | threw st t =>
    rw [hep] at h
    refine ⟨h.1, fun a ha => ?_⟩
    rw [h.2] at ha
    simp only [List.nil_append, List.mem_singleton] at ha
    rw [ha]
    rfl

/-- Shape of the `try` body past parameter extraction: an early return is the
single GraphiQL write with no execute call; otherwise nothing has been written
and any execute call carries the extracted `variables`. -/
theorem afterParams_shape (env : Env) (req : Request) (fo : Usable)
    (p : Params) (sg : Bool) :
    match afterParams env req fo p sg with
    | .returned st =>
        st.resp.writes = [.html (env.renderGraphiQL p fo.graphiql)] ∧
        st.execCalls = []
    | .done st =>
        st.resp.writes = [] ∧
        ∀ a ∈ st.execCalls, a.variableValues = p.variablesV
    | .threw st _ =>
        st.resp.writes = [] ∧
        ∀ a ∈ st.execCalls, a.variableValues = p.variablesV := by
  have hvac : ∀ a : ExecArgs, a ∈ ({} : MidSt).execCalls →
      a.variableValues = p.variablesV := by
    intro a ha
    exact absurd ha (List.not_mem_nil a)
  unfold afterParams
  dsimp only
  by_cases h1 : req.method ≠ "GET" ∧ req.method ≠ "POST"
  · rw [if_pos h1]
    exact ⟨rfl, hvac⟩
  · rw [if_neg h1]
    cases sg with
    | true =>
      exact ⟨rfl, rfl⟩
    | false =>
      cases hq : p.query with
      | none => exact ⟨rfl, hvac⟩
      | some q =>
        dsimp only
        by_cases h3 : (env.validateSchema fo.schema).isEmpty = false
        · rw [if_pos h3]
          exact ⟨rfl, hvac⟩
        · rw [if_neg h3]
          cases h4 : fo.parseFn q with
          | error t => exact ⟨rfl, hvac⟩
          | ok doc =>
            dsimp only
            cases h5 : fo.validateFn fo.schema doc
                (env.specifiedRules ++ fo.validationRules) with
            | error t => exact ⟨rfl, hvac⟩
            | ok verrs =>
              dsimp only
              by_cases h6 : verrs.isEmpty = false
              · rw [if_pos h6]
                exact ⟨rfl, hvac⟩
              · rw [if_neg h6]
                have hexec := execPhase_vars env fo p doc
                by_cases h7 : req.method = "GET"
                · rw [if_pos h7]
                  cases h8 : env.getOperationAST doc p.operationName with
                  | some op =>
                    dsimp only
                    by_cases h9 : op ≠ OpKind.query
                    · rw [if_pos h9]
                      exact ⟨rfl, hvac⟩
                    · rw [if_neg h9]
                      cases hep : execPhase env fo p doc ({} : MidSt) with
                      | returned st => rw [hep] at hexec; exact False.elim hexec
                      | done st => rw [hep] at hexec; exact hexec
                      | threw st t => rw [hep] at hexec; exact hexec
                  | none =>
                    dsimp only
                    cases hep : execPhase env fo p doc ({} : MidSt) with
                    | returned st => rw [hep] at hexec; exact False.elim hexec
                    | done st => rw [hep] at hexec; exact hexec
                    | threw st t => rw [hep] at hexec; exact hexec
                · rw [if_neg h7]
                  cases hep : execPhase env fo p doc ({} : MidSt) with
                  | returned st => rw [hep] at hexec; exact False.elim hexec
                  | done st => rw [hep] at hexec; exact hexec
                  | threw st t => rw [hep] at hexec; exact hexec

/-- C1: for every request and every behavior of the user options, the engine
and the platform primitives, the handler produces exactly one write to the
response — every failure in states 1 to 14 is routed through the single catch
block and the pipeline still reaches response formatting. -/
theorem handler_single_write (env : Env) (req : Request) :
    (graphqlMiddleware env req).resp.writes.length = 1 := by
  unfold graphqlMiddleware
  rcases hst : stage1 env req with ⟨foOpt, r⟩
  cases r with
  | error t =>
    have hF := (finish_shape env foOpt (applyCatch {} t)).1
    rw [hF, (applyCatch_preserves {} t).1]
    rfl
  | ok triple =>
    obtain ⟨fo, p, sg⟩ := triple
    dsimp only
    have h := afterParams_shape env req fo p sg
    cases hap : afterParams env req fo p sg with
    | returned st =>
      rw [hap] at h
      rw [h.1]
      rfl
    | done st =>
      rw [hap] at h
      rw [(finish_shape env (some fo) st).1, h.1]
      rfl
    | threw st t =>
      rw [hap] at h
      rw [(finish_shape env (some fo) (applyCatch st t)).1,
        (applyCatch_preserves st t).1, h.1]
      rfl

/-- Replacing a header of a different name leaves a lookup unchanged. -/
theorem find_setHeader_ne (hs : List (String × String)) (k v q : String)
    (h : (q == k) = false) :
    (setHeader hs k v).find? (fun p => p.1 == q) =
      hs.find? (fun p => p.1 == q) := by
  have hkq : (k == q) = false := by
    rw [beq_eq_false_iff_ne] at h ⊢
    exact fun e => h e.symm
  unfold setHeader
  by_cases hany : hs.any (fun p => p.1 == k) = true
  · rw [if_pos hany]
    clear hany
    induction hs with
    | nil => rfl
    | cons a tl ih =>
      by_cases hak : (a.1 == k) = true
      · have haq : (a.1 == q) = false := by
          rw [beq_iff_eq] at hak
          rw [hak]
          exact hkq
        rw [List.map_cons, if_pos hak]
        rw [List.find?_cons_of_neg _ (by simp [hkq]),
          List.find?_cons_of_neg _ (by simp [haq])]
        exact ih
      · rw [List.map_cons, if_neg hak]
        rw [List.find?_cons, List.find?_cons]
        cases haq : (a.1 == q) with
        | true => rfl
        | false => exact ih
  · rw [if_neg hany]
    rw [List.find?_append]
    have hone : List.find? (fun p => p.1 == q) [(k, v)] = none := by
      simp [hkq]
    rw [hone, Option.or_none]

/-- Response formatting can only touch the `Content-Type` and
`Content-Length` headers; any other header keeps its value. -/
theorem finish_getHeader (env : Env) (foOpt : Option Usable) (st : MidSt)
    (q : String) (h1 : (q == "Content-Type") = false)
    (h2 : (q == "Content-Length") = false) :
    getHeader (finish env foOpt st).resp q = getHeader st.resp q := by
  unfold finish
  cases foOpt with
  | none => rfl
  | some fo =>
    dsimp only
    by_cases hp : fo.pretty = true
    · rw [if_pos hp]
      unfold sendResp setRespHeader getHeader
      dsimp only
      rw [find_setHeader_ne _ _ _ _ h2, find_setHeader_ne _ _ _ _ h1]
    · rw [if_neg hp]
      rfl

/-- A successful `stage1` used the successful parameter extraction. -/
theorem stage1_ok_params (env : Env) (req : Request) (foOpt : Option Usable)
    (fo : Usable) (p : Params) (sg : Bool)
    (h : stage1 env req = (foOpt, .ok (fo, p, sg))) :
    getGraphQLParams env req = .ok p := by
  unfold stage1 at h
  cases h1 : resolveUserOptions env req none with
  | error t => rw [h1] at h; simp at h
  | ok uo1 =>
    rw [h1] at h
    dsimp only at h
    cases h2 : resolveOptions env uo1 req with
    | error t => rw [h2] at h; simp at h
    | ok fo1 =>
      rw [h2] at h
      dsimp only at h
      cases h3 : getGraphQLParams env req with
      | error t => rw [h3] at h; simp at h
      | ok params =>
        rw [h3] at h
        dsimp only at h
        cases hopt : env.options with
        | value v =>
          rw [hopt] at h
          dsimp only at h
          cases h5 : resolveOptions env uo1 req with
          | error t => rw [h5] at h; simp at h
          | ok fo2 =>
            rw [h5] at h
            dsimp only at h
            simp only [Prod.mk.injEq, Except.ok.injEq] at h
            rw [← h.2.2.1]
        | fn f =>
          rw [hopt] at h
          dsimp only at h
          cases h4 : f req (some params) with
          | error t => rw [h4] at h; simp at h
          | ok uo2 =>
            rw [h4] at h
            dsimp only at h
            cases h5 : resolveOptions env uo2 req with
            | error t => rw [h5] at h; simp at h
            | ok fo2 =>
              rw [h5] at h
              dsimp only at h
              simp only [Prod.mk.injEq, Except.ok.injEq] at h
              rw [← h.2.2.1]

/-- When both early option passes succeed but parameter extraction fails,
`stage1` propagates the extraction error alongside the first resolved
options. -/
theorem stage1_params_error (env : Env) (req : Request) (uo1 : UserOptionsRaw)
    (fo1 : Usable) (t : Thrown)
    (h1 : resolveUserOptions env req none = .ok uo1)
    (h2 : resolveOptions env uo1 req = .ok fo1)
    (h3 : getGraphQLParams env req = .error t) :
    stage1 env req = (some fo1, .error t) := by
  unfold stage1
  rw [h1]
  dsimp only
  rw [h2]
  dsimp only
  rw [h3]

/-- A query-string hit short-circuits the body in `lookupParam`. -/
theorem lookupParam_url (req : Request) (bd : List (String × Js)) (k s : String)
    (h : urlGet req k = some s) : lookupParam req bd k = some (.str s) := by
  unfold lookupParam
  rw [h]

/-- The `variables` handling of `getGraphQLParams`: a string value from the
query string is `JSON.parse`d into the params, and a parse failure is the 400
`Variables are invalid JSON.` error. -/
theorem getGraphQLParams_vars (env : Env) (req : Request) (s : String)
    (hs : urlGet req "variables" = some s) :
    (∀ v p, env.jsonParse s = some v → getGraphQLParams env req = .ok p →
      p.variablesV = some v) ∧
    (env.jsonParse s = none → ∀ bd, parseBody env req = .ok bd →
      getGraphQLParams env req = .error (e400 "Variables are invalid JSON.")) := by
  constructor
  · intro v p hv hok
    unfold getGraphQLParams at hok
    cases hpb : parseBody env req with
    | error t => rw [hpb] at hok; simp at hok
    | ok bd =>
      rw [hpb] at hok
      dsimp only at hok
      rw [lookupParam_url req bd "variables" s hs] at hok
      dsimp only at hok
      rw [hv] at hok
      dsimp only at hok
      injection hok with hok
      rw [← hok]
  · intro hv bd hpb
    unfold getGraphQLParams
    rw [hpb]
    dsimp only
    rw [lookupParam_url req bd "variables" s hs]
    dsimp only
    rw [hv]

/-- Any execute call recorded by a run used the extracted params'
`variables` as `variableValues`. -/
theorem middleware_exec_vars (env : Env) (req : Request) (p : Params)
    (hp : getGraphQLParams env req = .ok p) :
    ∀ a ∈ (graphqlMiddleware env req).execCalls,
      a.variableValues = p.variablesV := by
  intro a ha
  unfold graphqlMiddleware at ha
  rcases hst : stage1 env req with ⟨foOpt, r⟩
  rw [hst] at ha
  cases r with
  | error t =>
    dsimp only at ha
    rw [(finish_shape env foOpt (applyCatch {} t)).2.2,
      (applyCatch_preserves {} t).2] at ha
    exact absurd ha (List.not_mem_nil a)
  | ok triple =>
    obtain ⟨fo, p2, sg⟩ := triple
    dsimp only at ha
    have hp2 : p2 = p := by
      have hx := stage1_ok_params env req foOpt fo p2 sg hst
      rw [hp] at hx
      injection hx with hx
      exact hx.symm
    subst hp2
    have h := afterParams_shape env req fo p2 sg
    cases hap : afterParams env req fo p2 sg with
    | returned st =>
      rw [hap] at h ha
      rw [h.2] at ha
      exact absurd ha (List.not_mem_nil a)
    | done st =>
      rw [hap] at h ha
      rw [(finish_shape env (some fo) st).2.2] at ha
      exact h.2 a ha
    | threw st t =>
      rw [hap] at h ha
      rw [(finish_shape env (some fo) (applyCatch st t)).2.2,
        (applyCatch_preserves st t).2] at ha
      exact h.2 a ha

/-- When parameter extraction cannot succeed, no execute call is made. -/
theorem middleware_no_exec (env : Env) (req : Request)
    (hne : ∀ p, getGraphQLParams env req ≠ .ok p) :
    (graphqlMiddleware env req).execCalls = [] := by
  unfold graphqlMiddleware
  rcases hst : stage1 env req with ⟨foOpt, r⟩
  cases r with
  | error t =>
    dsimp only
    rw [(finish_shape env foOpt (applyCatch {} t)).2.2,
      (applyCatch_preserves {} t).2]
  | ok triple =>
    obtain ⟨fo, p2, sg⟩ := triple
    exact absurd (stage1_ok_params env req foOpt fo p2 sg hst) (hne p2)

/-- C9: a `variables` value supplied as a JSON string in the query parameters
is JSON-decoded and the decoded value is passed unchanged as `variableValues`
to every execute call; when the string is invalid JSON the extraction fails
with the 400 `Variables are invalid JSON.` error (provided body reading
itself succeeded), the response status is 400 when the option passes
succeeded, and no execution ever occurs. -/
theorem variables_roundtrip (env : Env) (req : Request) (s : String)
    (hs : urlGet req "variables" = some s) :
    (∀ v p, env.jsonParse s = some v → getGraphQLParams env req = .ok p →
      p.variablesV = some v ∧
      ∀ a ∈ (graphqlMiddleware env req).execCalls,
        a.variableValues = some v) ∧
    (env.jsonParse s = none →
      (∀ bd, parseBody env req = .ok bd →
        getGraphQLParams env req =
          .error (e400 "Variables are invalid JSON.")) ∧
      (graphqlMiddleware env req).execCalls = [] ∧
      (∀ uo1 fo1 bd, resolveUserOptions env req none = .ok uo1 →
        resolveOptions env uo1 req = .ok fo1 →
        parseBody env req = .ok bd →
        (graphqlMiddleware env req).resp.statusCode = 400)) := by
  constructor
  · intro v p hv hok
    have hvar := (getGraphQLParams_vars env req s hs).1 v p hv hok
    refine ⟨hvar, fun a ha => ?_⟩
    rw [middleware_exec_vars env req p hok a ha]
    exact hvar
  · intro hv
    have hne : ∀ p, getGraphQLParams env req ≠ .ok p := by
      intro p hok
      cases hpb : parseBody env req with
      | error t =>
        unfold getGraphQLParams at hok
        rw [hpb] at hok
        simp at hok
      | ok bd =>
        have := (getGraphQLParams_vars env req s hs).2 hv bd hpb
        rw [this] at hok
        simp at hok
    refine ⟨(getGraphQLParams_vars env req s hs).2 hv,
      middleware_no_exec env req hne, ?_⟩
    intro uo1 fo1 bd h1 h2 hpb
    have hγ := (getGraphQLParams_vars env req s hs).2 hv bd hpb
    have hst := stage1_params_error env req uo1 fo1 _ h1 h2 hγ
    unfold graphqlMiddleware
    rw [hst]
    dsimp only
    rw [(finish_shape env (some fo1)
      (applyCatch {} (e400 "Variables are invalid JSON."))).2.1]
    rfl

/-- Witness for `variables_roundtrip`: the decoded value lands in the params. -/
theorem variables_roundtrip_witness :
    urlGet reqC9 "variables" = some "7" ∧
    envC9.jsonParse "7" = some (.num 7) ∧
    getGraphQLParams envC9 reqC9 =
      .ok ⟨none, some (.num 7), none, false⟩ ∧
    (⟨none, some (.num 7), none, false⟩ : Params).variablesV =
      some (.num 7) := by
  refine ⟨rfl, rfl, rfl, ?_⟩
  exact ((variables_roundtrip envC9 reqC9 "7" rfl).1 (.num 7)
    ⟨none, some (.num 7), none, false⟩ rfl rfl).1

/-- C3 (amended): once options resolution and parameter extraction have
succeeded, a request whose method is neither GET nor POST is answered with
status 405 and an `Allow: GET, POST` header — but the method check runs only
after those stages, so it is not the first state of the pipeline. -/
theorem method_check (env : Env) (req : Request) (fo : Usable) (p : Params)
    (sg : Bool) (h1 : stage1 env req = (some fo, .ok (fo, p, sg)))
    (hm1 : req.method ≠ "GET") (hm2 : req.method ≠ "POST") :
    (graphqlMiddleware env req).resp.statusCode = 405 ∧
    getHeader (graphqlMiddleware env req).resp "Allow" = some "GET, POST" := by
  unfold graphqlMiddleware
  rw [h1]
  dsimp only
  unfold afterParams
  dsimp only
  rw [if_pos ⟨hm1, hm2⟩]
  dsimp only
  constructor
  · rw [(finish_shape env (some fo) _).2.1]
    rfl
  · rw [finish_getHeader env (some fo) _ "Allow" (by decide) (by decide)]
    rfl

/-- Witness for `method_check` at a concrete PUT request. -/
theorem method_check_witness :
    stage1 baseEnv reqC3w =
      (some (usableFor baseEnv),
        .ok (usableFor baseEnv, ⟨none, none, none, false⟩, false)) ∧
    (graphqlMiddleware baseEnv reqC3w).resp.statusCode = 405 ∧
    getHeader (graphqlMiddleware baseEnv reqC3w).resp "Allow" =
      some "GET, POST" := by
  refine ⟨rfl, ?_⟩
  exact method_check baseEnv reqC3w (usableFor baseEnv)
    ⟨none, none, none, false⟩ false rfl (by decide) (by decide)

/-- Counterexample to C3 as stated: the method check is not the first
pipeline state — a PUT request whose body fails to parse is answered with
the body's 400 error and no `Allow` header, not with 405. -/
theorem method_check_counterexample :
    reqC3.method ≠ "GET" ∧ reqC3.method ≠ "POST" ∧
    (graphqlMiddleware baseEnv reqC3).resp.statusCode = 400 ∧
    getHeader (graphqlMiddleware baseEnv reqC3).resp "Allow" = none := by
  refine ⟨by decide, by decide, rfl, rfl⟩

/-- C4: on a GET request whose validated document's requested operation is a
mutation or subscription, the operation is never executed; when the
interactive page may be shown the response is the GraphiQL page (status 200),
otherwise the request fails with 405 and `Allow: POST`. -/
theorem operation_gate (env : Env) (req : Request) (fo : Usable) (p : Params)
    (sg : Bool) (q : String) (doc : Nat) (op : OpKind)
    (h1 : stage1 env req = (some fo, .ok (fo, p, sg)))
    (hm : req.method = "GET")
    (hq : p.query = some q)
    (hsv : env.validateSchema fo.schema = [])
    (hpf : fo.parseFn q = .ok doc)
    (hvf : fo.validateFn fo.schema doc
      (env.specifiedRules ++ fo.validationRules) = .ok [])
    (hop : env.getOperationAST doc p.operationName = some op)
    (hnq : op ≠ OpKind.query) :
    (graphqlMiddleware env req).execCalls = [] ∧
    (sg = true →
      (graphqlMiddleware env req).resp.writes =
        [.html (env.renderGraphiQL p fo.graphiql)] ∧
      (graphqlMiddleware env req).resp.statusCode = 200) ∧
    (sg = false →
      (graphqlMiddleware env req).resp.statusCode = 405 ∧
      getHeader (graphqlMiddleware env req).resp "Allow" = some "POST") := by
  unfold graphqlMiddleware
  rw [h1]
  dsimp only
  unfold afterParams
  dsimp only
  have hcond : ¬ (req.method ≠ "GET" ∧ req.method ≠ "POST") := by
    simp [hm]
  rw [if_neg hcond]
  cases sg with
  | true =>
    rw [if_pos rfl]
    exact ⟨rfl, ⟨fun _ => ⟨rfl, rfl⟩, fun hf => absurd hf (by decide)⟩⟩
  | false =>
    rw [if_neg (by decide)]
    rw [hq]
    dsimp only
    rw [hsv]
    rw [if_neg (by simp)]
    rw [hpf]
    dsimp only
    rw [hvf]
    dsimp only
    rw [if_neg (by simp)]
    rw [if_pos hm, hop]
    dsimp only
    rw [if_pos hnq, if_neg (by decide)]
    dsimp only
    refine ⟨?_, ⟨fun ht => absurd ht (by decide), fun _ => ⟨?_, ?_⟩⟩⟩
    · rw [(finish_shape env (some fo) _).2.2, (applyCatch_preserves _ _).2]
    · rw [(finish_shape env (some fo) _).2.1]
      rfl
    · rw [finish_getHeader env (some fo) _ "Allow" (by decide) (by decide)]
      rfl

/-- Witness for `operation_gate`: the GET mutation without GraphiQL gets a
405 with `Allow: POST`. -/
theorem operation_gate_witness :
    stage1 envC4 reqC4 =
      (some (usableFor envC4),
        .ok (usableFor envC4, ⟨some "mutationdoc", none, none, false⟩,
          false)) ∧
    (graphqlMiddleware envC4 reqC4).resp.statusCode = 405 ∧
    getHeader (graphqlMiddleware envC4 reqC4).resp "Allow" = some "POST" := by
  refine ⟨rfl, ?_, ?_⟩
  · exact ((operation_gate envC4 reqC4 (usableFor envC4)
      ⟨some "mutationdoc", none, none, false⟩ false "mutationdoc" 0 .mutation
      rfl rfl rfl rfl rfl rfl rfl (by decide)).2.2 rfl).1
  · exact ((operation_gate envC4 reqC4 (usableFor envC4)
      ⟨some "mutationdoc", none, none, false⟩ false "mutationdoc" 0 .mutation
      rfl rfl rfl rfl rfl rfl rfl (by decide)).2.2 rfl).2

/-- C6 (amended): for a GET or POST request on which options and params
succeeded with `showGraphiQL` true, the GraphiQL page short-circuits the
query-presence check: even with no query at all, the response is the
interactive HTML page with status 200, not the 400 `Must provide query
string.` error. -/
theorem graphiql_before_query_check (env : Env) (req : Request) (fo : Usable)
    (p : Params) (h1 : stage1 env req = (some fo, .ok (fo, p, true)))
    (hm : req.method = "GET" ∨ req.method = "POST")
    (hq : p.query = none) :
    (graphqlMiddleware env req).resp.writes =
      [.html (env.renderGraphiQL p fo.graphiql)] ∧
    (graphqlMiddleware env req).resp.statusCode = 200 := by
  unfold graphqlMiddleware
  rw [h1]
  dsimp only
  unfold afterParams
  dsimp only
  have hcond : ¬ (req.method ≠ "GET" ∧ req.method ≠ "POST") := by
    rcases hm with h | h <;> simp [h]
  rw [if_neg hcond]
  rw [if_pos rfl]
  exact ⟨rfl, rfl⟩

/-- Witness for `graphiql_before_query_check` at a concrete query-less GET. -/
theorem graphiql_before_query_check_witness :
    stage1 envC6 reqC6w =
      (some (usableFor envC6),
        .ok (usableFor envC6, ⟨none, none, none, false⟩, true)) ∧
    (graphqlMiddleware envC6 reqC6w).resp.writes =
      [.html "graphiql-page"] := by
  refine ⟨rfl, ?_⟩
  exact (graphiql_before_query_check envC6 reqC6w (usableFor envC6)
    ⟨none, none, none, false⟩ rfl (Or.inl rfl) rfl).1

/-- Counterexample to C6 as stated over all requests: a DELETE request with
`raw` unset, HTML preferred and the GraphiQL toggle truthy is answered with
the 405 JSON response, not the interactive page, because the method check
precedes the short-circuit. -/
theorem graphiql_counterexample :
    reqC6.method = "DELETE" ∧
    getGraphQLParams envC6 reqC6 = .ok ⟨none, none, none, false⟩ ∧
    canDisplayGraphiQL reqC6 ⟨none, none, none, false⟩ = true ∧
    (graphqlMiddleware envC6 reqC6).resp.writes.map WriteEv.kind =
      [WKind.json] ∧
    (graphqlMiddleware envC6 reqC6).resp.statusCode = 405 := by
  exact ⟨rfl, rfl, rfl, rfl, rfl⟩

end ExpressGraphql
